import Mathlib

/-!
Verification of the core algorithms of the `vision` repository: the
"object-fit: cover" coordinate mapper, the confidence-weighted EMA box
smoother with dead-zone filtering, the sliding-window presence tracker that
drives auto-capture, and the capture-and-analyze error boundary.

All numeric code is embedded over `ℚ`; JavaScript numbers are modelled as
exact rationals.
-/

namespace Vision

/-- A rectangle in display (canvas CSS) coordinates, as produced by
`mapRectFromVideoToCanvas` in `src/edge/drawing.js`: fields `x, y, w, h`. -/
structure MappedRect where
  x : ℚ
  y : ℚ
  w : ℚ
  h : ℚ
deriving DecidableEq, Repr

/-- A detector bounding box in source (video) pixel coordinates, with the
field names used by the detection results consumed in `src/edge/drawing.js`:
`originX, originY, width, height`. -/
structure BBox where
  originX : ℚ
  originY : ℚ
  width : ℚ
  height : ℚ
deriving DecidableEq, Repr

/-- Embeds `mapRectFromVideoToCanvas` from `src/edge/drawing.js` (lines
60-84).  The video dimensions and the bounding client rect of the video
element are passed as explicit arguments.  The source performs the division
unconditionally; so does this embedding (`ℚ` division). -/
def mapRectFromVideoToCanvas (bbox : BBox) (videoW videoH viewW viewH : ℚ) :
    MappedRect :=
  let scale := max (viewW / videoW) (viewH / videoH)
  let scaledW := videoW * scale
  let scaledH := videoH * scale
  let offsetX := (scaledW - viewW) / 2
  let offsetY := (scaledH - viewH) / 2
  { x := bbox.originX * scale - offsetX
    y := bbox.originY * scale - offsetY
    w := bbox.width * scale
    h := bbox.height * scale }

/-- A rectangle in the display coordinates of the v4 app
(`src/v4/lib/bounding-boxes.js`), with fields `x, y, width, height`. -/
structure V4Rect where
  x : ℚ
  y : ℚ
  width : ℚ
  height : ℚ
deriving DecidableEq, Repr

/-- A recognition-result box of the v4 app: position `coordinates.x/.y` and
size `size.width/.height` in video pixel space. -/
structure V4BBox where
  cx : ℚ
  cy : ℚ
  width : ℚ
  height : ℚ
deriving DecidableEq, Repr

/-- Embeds `mapBoundingBoxToDisplay` from `src/v4/lib/bounding-boxes.js`
(lines 16-49).  The JS guard `if (!videoWidth || !videoHeight)` returns the
all-zero rect; on `ℚ` the falsy test is equality with `0`. -/
def mapBoundingBoxToDisplay (bbox : V4BBox)
    (videoWidth videoHeight displayWidth displayHeight : ℚ) : V4Rect :=
  if videoWidth = 0 ∨ videoHeight = 0 then
    { x := 0, y := 0, width := 0, height := 0 }
  else
    let scaleX := displayWidth / videoWidth
    let scaleY := displayHeight / videoHeight
    let scale := max scaleX scaleY
    let scaledVideoWidth := videoWidth * scale
    let scaledVideoHeight := videoHeight * scale
    let offsetX := (scaledVideoWidth - displayWidth) / 2
    let offsetY := (scaledVideoHeight - displayHeight) / 2
    { x := bbox.cx * scale - offsetX
      y := bbox.cy * scale - offsetY
      width := bbox.width * scale
      height := bbox.height * scale }

end Vision

namespace Vision

/-- Embeds the clamp applied to each mapped rect in `drawDetections`
(`src/edge/drawing.js`, lines 128-133).  Note that the width and height are
clamped against the unclamped origin `rawRect.x` / `rawRect.y`, exactly as
in the source. -/
def clampRect (viewW viewH : ℚ) (rawRect : MappedRect) : MappedRect :=
  { x := max 0 (min viewW rawRect.x)
    y := max 0 (min viewH rawRect.y)
    w := max 0 (min (viewW - rawRect.x) rawRect.w)
    h := max 0 (min (viewH - rawRect.y) rawRect.h) }

/-- Dead-zone epsilon, `DEAD_ZONE_EPS` in `src/edge/config.js`. -/
def deadZoneEps : ℚ := 2

/-- Base smoothing factor, `BASE_ALPHA` in `src/edge/config.js`. -/
def baseAlpha : ℚ := 0.25

/-- Embeds `applyDeadZone` from `src/edge/smoothing.js` (lines 41-48). -/
def applyDeadZone (prev curr : MappedRect) (eps : ℚ) : MappedRect :=
  { x := if |curr.x - prev.x| < eps then prev.x else curr.x
    y := if |curr.y - prev.y| < eps then prev.y else curr.y
    w := if |curr.w - prev.w| < eps then prev.w else curr.w
    h := if |curr.h - prev.h| < eps then prev.h else curr.h }

/-- The confidence-dependent smoothing factor computed inside `smoothBBox`
(`src/edge/smoothing.js`, lines 20-21):
`alpha = max(0.1, min(0.9, BASE_ALPHA + confidence * 0.4))`. -/
def emaAlpha (confidence : ℚ) : ℚ :=
  max 0.1 (min 0.9 (baseAlpha + confidence * 0.4))

/-- The per-field EMA update applied by `smoothBBox` on a subsequent
observation (`src/edge/smoothing.js`, lines 23-28):
each field becomes `prev + alpha * (new - prev)`. -/
def emaStep (prev bbox : MappedRect) (alpha : ℚ) : MappedRect :=
  { x := prev.x + alpha * (bbox.x - prev.x)
    y := prev.y + alpha * (bbox.y - prev.y)
    w := prev.w + alpha * (bbox.w - prev.w)
    h := prev.h + alpha * (bbox.h - prev.h) }

end Vision

namespace Vision

/-- C2: mapping the full source box under cover scaling exactly covers the
display on the axis whose required scale is larger and overflows with equal
overhang on both sides of the other axis.

For every positive source size `videoW × videoH` and display size
`viewW × viewH`, the mapped rect `r` of the full source box
`{0, 0, videoW, videoH}` satisfies: if the x-axis needs the larger scale
(`viewH / videoH ≤ viewW / videoW`) then `r` spans the display exactly in x
(`r.x = 0`, `r.w = viewW`) and in y it starts at or above the top
(`r.y ≤ 0`), ends at or below the bottom, with the top overhang `-r.y`
equal to the bottom overhang `r.y + r.h - viewH`; symmetrically when the
y-axis needs the larger scale. -/
theorem cover_scale_full_box_covers_display
    (videoW videoH viewW viewH : ℚ)
    (hvw : 0 < videoW) (hvh : 0 < videoH)
    (hdw : 0 < viewW) (hdh : 0 < viewH) :
    (viewH / videoH ≤ viewW / videoW →
      (mapRectFromVideoToCanvas ⟨0, 0, videoW, videoH⟩ videoW videoH viewW viewH).x = 0 ∧
      (mapRectFromVideoToCanvas ⟨0, 0, videoW, videoH⟩ videoW videoH viewW viewH).w = viewW ∧
      (mapRectFromVideoToCanvas ⟨0, 0, videoW, videoH⟩ videoW videoH viewW viewH).y ≤ 0 ∧
      -(mapRectFromVideoToCanvas ⟨0, 0, videoW, videoH⟩ videoW videoH viewW viewH).y =
        (mapRectFromVideoToCanvas ⟨0, 0, videoW, videoH⟩ videoW videoH viewW viewH).y +
          (mapRectFromVideoToCanvas ⟨0, 0, videoW, videoH⟩ videoW videoH viewW viewH).h - viewH) ∧
    (viewW / videoW ≤ viewH / videoH →
      (mapRectFromVideoToCanvas ⟨0, 0, videoW, videoH⟩ videoW videoH viewW viewH).y = 0 ∧
      (mapRectFromVideoToCanvas ⟨0, 0, videoW, videoH⟩ videoW videoH viewW viewH).h = viewH ∧
      (mapRectFromVideoToCanvas ⟨0, 0, videoW, videoH⟩ videoW videoH viewW viewH).x ≤ 0 ∧
      -(mapRectFromVideoToCanvas ⟨0, 0, videoW, videoH⟩ videoW videoH viewW viewH).x =
        (mapRectFromVideoToCanvas ⟨0, 0, videoW, videoH⟩ videoW videoH viewW viewH).x +
          (mapRectFromVideoToCanvas ⟨0, 0, videoW, videoH⟩ videoW videoH viewW viewH).w - viewW) := by
  constructor
  · intro hx
    have hscale : max (viewW / videoW) (viewH / videoH) = viewW / videoW :=
      max_eq_left hx
    have hWne : videoW ≠ 0 := ne_of_gt hvw
    have hcov : viewH ≤ videoH * (viewW / videoW) := by
      have := mul_le_mul_of_nonneg_left hx (le_of_lt hvh)
      calc viewH = videoH * (viewH / videoH) := by
              field_simp
        _ ≤ videoH * (viewW / videoW) := this
    refine ⟨?_, ?_, ?_, ?_⟩
    · simp only [mapRectFromVideoToCanvas, hscale]
      field_simp
    · simp only [mapRectFromVideoToCanvas, hscale]
      field_simp
    · simp only [mapRectFromVideoToCanvas, hscale]
      linarith
    · simp only [mapRectFromVideoToCanvas, hscale]
      ring
  · intro hy
    have hscale : max (viewW / videoW) (viewH / videoH) = viewH / videoH :=
      max_eq_right hy
    have hHne : videoH ≠ 0 := ne_of_gt hvh
    have hcov : viewW ≤ videoW * (viewH / videoH) := by
      have := mul_le_mul_of_nonneg_left hy (le_of_lt hvw)
      calc viewW = videoW * (viewW / videoW) := by
              field_simp
        _ ≤ videoW * (viewH / videoH) := this
    refine ⟨?_, ?_, ?_, ?_⟩
    · simp only [mapRectFromVideoToCanvas, hscale]
      field_simp
    · simp only [mapRectFromVideoToCanvas, hscale]
      field_simp
    · simp only [mapRectFromVideoToCanvas, hscale]
      linarith
    · simp only [mapRectFromVideoToCanvas, hscale]
      ring

/-- Witness for C2: a 640×480 source on a 360×640 display (portrait view of
a landscape camera, as in the app) is covered exactly in y and overflows
symmetrically in x. -/
theorem cover_scale_full_box_covers_display_witness :
    (640 / 480 : ℚ) ≤ 360 / 640 ∨
      ((mapRectFromVideoToCanvas ⟨0, 0, 640, 480⟩ 640 480 360 640).y = 0 ∧
       (mapRectFromVideoToCanvas ⟨0, 0, 640, 480⟩ 640 480 360 640).h = 640 ∧
       (mapRectFromVideoToCanvas ⟨0, 0, 640, 480⟩ 640 480 360 640).x ≤ 0 ∧
       -(mapRectFromVideoToCanvas ⟨0, 0, 640, 480⟩ 640 480 360 640).x =
         (mapRectFromVideoToCanvas ⟨0, 0, 640, 480⟩ 640 480 360 640).x +
           (mapRectFromVideoToCanvas ⟨0, 0, 640, 480⟩ 640 480 360 640).w - 360) :=
  Or.inr ((cover_scale_full_box_covers_display 640 480 360 640
    (by norm_num) (by norm_num) (by norm_num) (by norm_num)).2 (by norm_num))

/-- C3 counterexample: on a degenerate input (source width 0) the v4
coordinate mapper `mapBoundingBoxToDisplay` does not reject or return null;
it returns the plain numeric rect `{x: 0, y: 0, width: 0, height: 0}` — and
that very same rect is also its output for a perfectly valid, non-degenerate
input, so the result is not a distinguishable "not ready" value.  (The edge
mapper `mapRectFromVideoToCanvas` has no zero check at all.) -/
theorem degenerate_mapper_yields_numeric_rect_cex :
    mapBoundingBoxToDisplay ⟨5, 6, 10, 10⟩ 0 480 360 640 = ⟨0, 0, 0, 0⟩ ∧
    mapBoundingBoxToDisplay ⟨0, 0, 0, 0⟩ 10 10 10 10 = ⟨0, 0, 0, 0⟩ := by
  constructor
  · simp [mapBoundingBoxToDisplay]
  · norm_num [mapBoundingBoxToDisplay]

/-- C3 amended: for every input with `sourceWidth = 0` or `sourceHeight = 0`
the v4 coordinate mapper `mapBoundingBoxToDisplay` short-circuits before the
cover-scale division and returns the fixed all-zero rect
`{x: 0, y: 0, width: 0, height: 0}` — a numeric rect, not a reject/null
(the edge mapper `mapRectFromVideoToCanvas` performs no such check). -/
theorem degenerate_mapper_returns_zero_rect (bbox : V4BBox)
    (videoWidth videoHeight displayWidth displayHeight : ℚ)
    (h : videoWidth = 0 ∨ videoHeight = 0) :
    mapBoundingBoxToDisplay bbox videoWidth videoHeight
      displayWidth displayHeight = ⟨0, 0, 0, 0⟩ := by
  simp only [mapBoundingBoxToDisplay, if_pos h]

/-- Witness for the amended C3 at a concrete degenerate input. -/
theorem degenerate_mapper_returns_zero_rect_witness :
    ((0 : ℚ) = 0 ∨ (480 : ℚ) = 0) ∧
      mapBoundingBoxToDisplay ⟨5, 6, 10, 10⟩ 0 480 360 640 = ⟨0, 0, 0, 0⟩ :=
  ⟨Or.inl rfl,
    degenerate_mapper_returns_zero_rect ⟨5, 6, 10, 10⟩ 0 480 360 640 (Or.inl rfl)⟩

/-- C5: the clamp in `drawDetections` evaluated at a failing input.  For the
mapped rect `{x: -50, y: 0, w: 120, h: 10}` on a 100×100 display, the clamp
produces `{x: 0, y: 0, w: 120, h: 10}`, whose extent `x + w = 120` exceeds
the display width 100: the width is clamped against the unclamped origin
(`view.width - rawRect.x` with `rawRect.x = -50`), so the claimed bound
`clamped x + clamped width ≤ displayWidth` fails.  (The parallel v4
implementation in `src/v4/lib/bounding-boxes.js` subtracts the clamped
origin instead, which does satisfy the bound.) -/
theorem clamp_extent_exceeds_display_at_failing_input :
    clampRect 100 100 ⟨-50, 0, 120, 10⟩ = ⟨0, 0, 120, 10⟩ ∧
      ¬((clampRect 100 100 ⟨-50, 0, 120, 10⟩).x +
          (clampRect 100 100 ⟨-50, 0, 120, 10⟩).w ≤ 100) := by
  norm_num [clampRect]

/-- C8: `applyDeadZone` decides the four fields independently — a field of
the output equals the previous value exactly when the displacement is below
`eps`, and equals the current value otherwise; when every field moves by
less than `eps` the output is exactly `prev`. -/
theorem applyDeadZone_per_field (prev curr : MappedRect) (eps : ℚ) :
    ((|curr.x - prev.x| < eps → (applyDeadZone prev curr eps).x = prev.x) ∧
      (¬|curr.x - prev.x| < eps → (applyDeadZone prev curr eps).x = curr.x)) ∧
    ((|curr.y - prev.y| < eps → (applyDeadZone prev curr eps).y = prev.y) ∧
      (¬|curr.y - prev.y| < eps → (applyDeadZone prev curr eps).y = curr.y)) ∧
    ((|curr.w - prev.w| < eps → (applyDeadZone prev curr eps).w = prev.w) ∧
      (¬|curr.w - prev.w| < eps → (applyDeadZone prev curr eps).w = curr.w)) ∧
    ((|curr.h - prev.h| < eps → (applyDeadZone prev curr eps).h = prev.h) ∧
      (¬|curr.h - prev.h| < eps → (applyDeadZone prev curr eps).h = curr.h)) ∧
    (|curr.x - prev.x| < eps → |curr.y - prev.y| < eps →
      |curr.w - prev.w| < eps → |curr.h - prev.h| < eps →
      applyDeadZone prev curr eps = prev) := by
  constructor
  · exact ⟨fun h => if_pos h, fun h => if_neg h⟩
  constructor
  · exact ⟨fun h => if_pos h, fun h => if_neg h⟩
  constructor
  · exact ⟨fun h => if_pos h, fun h => if_neg h⟩
  constructor
  · exact ⟨fun h => if_pos h, fun h => if_neg h⟩
  · intro hx hy hw hh
    simp_all [applyDeadZone]

/-- Repeated application of the per-frame smoothing step of `smoothBBox`
toward a constant target rect with constant confidence: `emaIter target
conf n r` is the stored rect after `n` frames starting from `r`. -/
def emaIter (target : MappedRect) (conf : ℚ) : ℕ → MappedRect → MappedRect
  | 0, r => r
  | n + 1, r => emaIter target conf n (emaStep r target (emaAlpha conf))

/-- Distance between two rects: the largest field-wise displacement. -/
def rectDist (a b : MappedRect) : ℚ :=
  max (max |a.x - b.x| |a.y - b.y|) (max |a.w - b.w| |a.h - b.h|)

theorem rectDist_nonneg (a b : MappedRect) : 0 ≤ rectDist a b :=
  le_trans (abs_nonneg _) (le_trans (le_max_left _ _) (le_max_left _ _))

theorem rectDist_eq_zero_iff (a b : MappedRect) : rectDist a b = 0 ↔ a = b := by
  unfold rectDist
  constructor
  · intro h
    have key : ∀ q : ℚ, |q| ≤ 0 → q = 0 := fun q hq => by
      have := abs_eq_zero.mp (le_antisymm hq (abs_nonneg q))
      exact this
    have ex : a.x = b.x := by
      have hx := key (a.x - b.x) (by
        rw [← h]
        exact (le_max_left _ _).trans (le_max_left _ _))
      linarith
    have ey : a.y = b.y := by
      have hy := key (a.y - b.y) (by
        rw [← h]
        exact (le_max_right _ _).trans (le_max_left _ _))
      linarith
    have ew : a.w = b.w := by
      have hw := key (a.w - b.w) (by
        rw [← h]
        exact (le_max_left _ _).trans (le_max_right _ _))
      linarith
    have eh : a.h = b.h := by
      have hh := key (a.h - b.h) (by
        rw [← h]
        exact (le_max_right _ _).trans (le_max_right _ _))
      linarith
    cases a
    cases b
    simp_all
  · intro h
    subst h
    simp

/-- For confidence in `[0, 1]` the clamp in `emaAlpha` is inactive and the
factor lies in `[0.25, 0.65]`. -/
theorem emaAlpha_bounds (conf : ℚ) (h0 : 0 ≤ conf) (h1 : conf ≤ 1) :
    emaAlpha conf = baseAlpha + conf * 0.4 ∧
      (0.25 : ℚ) ≤ emaAlpha conf ∧ emaAlpha conf ≤ 0.65 := by
  have hlo : (0.25 : ℚ) ≤ baseAlpha + conf * 0.4 := by
    unfold baseAlpha; nlinarith
  have hhi : baseAlpha + conf * 0.4 ≤ 0.65 := by
    unfold baseAlpha; nlinarith
  have heq : emaAlpha conf = baseAlpha + conf * 0.4 := by
    unfold emaAlpha
    rw [min_eq_right (by linarith : baseAlpha + conf * 0.4 ≤ (0.9 : ℚ))]
    exact max_eq_right (by linarith)
  exact ⟨heq, heq ▸ hlo, heq ▸ hhi⟩

/-- One EMA step scales every field displacement, hence the distance to the
target, by exactly `1 - alpha`. -/
theorem rectDist_emaStep (r target : MappedRect) (alpha : ℚ)
    (h1 : alpha ≤ 1) :
    rectDist (emaStep r target alpha) target = (1 - alpha) * rectDist r target := by
  have hscale : ∀ p t : ℚ, |(p + alpha * (t - p)) - t| = (1 - alpha) * |p - t| := by
    intro p t
    have : (p + alpha * (t - p)) - t = (1 - alpha) * (p - t) := by ring
    rw [this, abs_mul, abs_of_nonneg (by linarith : (0 : ℚ) ≤ 1 - alpha)]
  unfold rectDist emaStep
  simp only [hscale]
  rw [← mul_max_of_nonneg _ _ (by linarith : (0 : ℚ) ≤ 1 - alpha),
    ← mul_max_of_nonneg _ _ (by linarith : (0 : ℚ) ≤ 1 - alpha),
    ← mul_max_of_nonneg _ _ (by linarith : (0 : ℚ) ≤ 1 - alpha)]

/-- After `n` smoothing steps the distance to the target is the initial
distance scaled by `(1 - alpha) ^ n`. -/
theorem rectDist_emaIter (target : MappedRect) (conf : ℚ) (h0 : 0 ≤ conf)
    (h1 : conf ≤ 1) (n : ℕ) (r : MappedRect) :
    rectDist (emaIter target conf n r) target =
      (1 - emaAlpha conf) ^ n * rectDist r target := by
  induction n generalizing r with
  | zero => simp [emaIter]
  | succ n ih =>
    obtain ⟨-, -, hhi⟩ := emaAlpha_bounds conf h0 h1
    rw [emaIter, ih, rectDist_emaStep _ _ _ (by linarith), pow_succ]
    ring

/-- C7: smoothing an already-tracked key toward a constant target rect with
constant confidence `conf ∈ [0, 1]` uses `alpha = clamp(baseAlpha +
conf*0.4, 0.1, 0.9) = baseAlpha + conf*0.4` and the per-field update
`prev + alpha*(new - prev)`; each step strictly decreases the distance to
the target while the rects differ, and for every starting rect there is a
bound `N` (determined by alpha and the start) after which every field is
within 1 unit of the target. -/
theorem ema_convergence (start target : MappedRect) (conf : ℚ)
    (h0 : 0 ≤ conf) (h1 : conf ≤ 1) :
    emaAlpha conf = baseAlpha + conf * 0.4 ∧
    (∀ n : ℕ, emaIter target conf n start ≠ target →
      rectDist (emaIter target conf (n + 1) start) target <
        rectDist (emaIter target conf n start) target) ∧
    (∃ N : ℕ, ∀ n : ℕ, N ≤ n →
      rectDist (emaIter target conf n start) target < 1) := by
  obtain ⟨heq, hlo, hhi⟩ := emaAlpha_bounds conf h0 h1
  have hbeta0 : (0 : ℚ) ≤ 1 - emaAlpha conf := by linarith
  have hbeta1 : 1 - emaAlpha conf ≤ 0.75 := by linarith
  have hbetalt : 1 - emaAlpha conf < 1 := by linarith
  refine ⟨heq, ?_, ?_⟩
  · intro n hne
    have hpos : 0 < rectDist (emaIter target conf n start) target := by
      rcases lt_or_eq_of_le (rectDist_nonneg (emaIter target conf n start) target)
        with h | h
      · exact h
      · exact absurd ((rectDist_eq_zero_iff _ _).mp h.symm) hne
    calc rectDist (emaIter target conf (n + 1) start) target
        = (1 - emaAlpha conf) ^ (n + 1) * rectDist start target := by
          rw [rectDist_emaIter target conf h0 h1]
      _ = (1 - emaAlpha conf) * ((1 - emaAlpha conf) ^ n * rectDist start target) := by
          rw [pow_succ]; ring
      _ = (1 - emaAlpha conf) * rectDist (emaIter target conf n start) target := by
          rw [rectDist_emaIter target conf h0 h1]
      _ < 1 * rectDist (emaIter target conf n start) target := by
          exact mul_lt_mul_of_pos_right hbetalt hpos
      _ = rectDist (emaIter target conf n start) target := one_mul _
  · have hd0 : 0 ≤ rectDist start target := rectDist_nonneg start target
    rcases eq_or_lt_of_le hd0 with hzero | hdpos
    · refine ⟨0, fun n _ => ?_⟩
      rw [rectDist_emaIter target conf h0 h1, ← hzero, mul_zero]
      norm_num
    · obtain ⟨N, hN⟩ := exists_pow_lt_of_lt_one
        (show (0 : ℚ) < 1 / rectDist start target by positivity)
        (show (0.75 : ℚ) < 1 by norm_num)
      refine ⟨N, fun n hn => ?_⟩
      rw [rectDist_emaIter target conf h0 h1]
      have step1 : (1 - emaAlpha conf) ^ n ≤ (0.75 : ℚ) ^ n :=
        pow_le_pow_left₀ hbeta0 hbeta1 n
      have step2 : (0.75 : ℚ) ^ n ≤ (0.75 : ℚ) ^ N :=
        pow_le_pow_of_le_one (by norm_num) (by norm_num) hn
      have step3 : (0.75 : ℚ) ^ N * rectDist start target < 1 := by
        have := mul_lt_mul_of_pos_right hN hdpos
        rwa [one_div, inv_mul_cancel₀ (ne_of_gt hdpos)] at this
      calc (1 - emaAlpha conf) ^ n * rectDist start target
          ≤ (0.75 : ℚ) ^ N * rectDist start target := by
            exact mul_le_mul_of_nonneg_right (le_trans step1 step2) hd0
        _ < 1 := step3

/-- Witness for C7 at a concrete input: starting from the origin rect and
smoothing toward `{40, 40, 40, 40}` with confidence `1/2`. -/
theorem ema_convergence_witness :
    emaAlpha (1 / 2) = baseAlpha + (1 / 2) * 0.4 ∧
    (∀ n : ℕ, emaIter ⟨40, 40, 40, 40⟩ (1 / 2) n ⟨0, 0, 0, 0⟩ ≠ ⟨40, 40, 40, 40⟩ →
      rectDist (emaIter ⟨40, 40, 40, 40⟩ (1 / 2) (n + 1) ⟨0, 0, 0, 0⟩) ⟨40, 40, 40, 40⟩ <
        rectDist (emaIter ⟨40, 40, 40, 40⟩ (1 / 2) n ⟨0, 0, 0, 0⟩) ⟨40, 40, 40, 40⟩) ∧
    (∃ N : ℕ, ∀ n : ℕ, N ≤ n →
      rectDist (emaIter ⟨40, 40, 40, 40⟩ (1 / 2) n ⟨0, 0, 0, 0⟩) ⟨40, 40, 40, 40⟩ < 1) :=
  ema_convergence ⟨0, 0, 0, 0⟩ ⟨40, 40, 40, 40⟩ (1 / 2) (by norm_num) (by norm_num)

/-- Witness for C8: every field of the new rect differs by less than 2, so
the dead zone returns the previous rect bit-identically. -/
theorem applyDeadZone_per_field_witness :
    applyDeadZone ⟨0, 0, 10, 10⟩ ⟨1, -1, 11, 9.5⟩ 2 = ⟨0, 0, 10, 10⟩ :=
  (applyDeadZone_per_field ⟨0, 0, 10, 10⟩ ⟨1, -1, 11, 9.5⟩ 2).2.2.2.2
    (by norm_num [abs_lt]) (by norm_num [abs_lt])
    (by norm_num [abs_lt]) (by norm_num [abs_lt])

end Vision

namespace Vision

/-- JavaScript strings are modelled as lists of characters. -/
abbrev Str := List Char

/-- Character-wise model of JS `toLowerCase`. -/
def lowerStr (s : Str) : Str := s.map Char.toLower

/-- Model of JS `hay.includes(needle)`: substring containment. -/
def strIncludes (hay needle : Str) : Bool :=
  needle.isPrefixOf hay ||
    match hay with
    | [] => false
    | _ :: t => strIncludes t needle

theorem strIncludes_iff (hay needle : Str) :
    strIncludes hay needle = true ↔ needle <:+: hay := by
  induction hay with
  | nil =>
    simp [strIncludes, List.isPrefixOf_iff_prefix]
  | cons a t ih =>
    simp only [strIncludes, Bool.or_eq_true, List.isPrefixOf_iff_prefix, ih,
      List.infix_cons_iff]

/-- One entry of a detection's `categories` array. -/
structure Category where
  categoryName : Str
  score : ℚ
deriving DecidableEq, Repr

/-- A raw per-frame detection as consumed by `drawDetections`. -/
structure Detection where
  categories : List Category
  boundingBox : BBox
deriving DecidableEq, Repr

/-- The lookup `OBJECT_TYPE_MAP[filterType] || []` over the constant map of
`src/edge/config.js`. -/
def objectTypeMap (filterType : Str) : List Str :=
  if filterType = "person".toList then
    ["person".toList, "human".toList]
  else if filterType = "pet".toList then
    ["dog".toList, "cat".toList, "bird".toList]
  else if filterType = "car".toList then
    ["car".toList, "truck".toList, "bus".toList, "motorcycle".toList]
  else []

/-- Embeds `filterDetectionsByType` from `src/edge/drawing.js` (lines
16-28): detections without a first category are dropped; the rest are kept
when the lowercased category name contains one of the allowed keywords. -/
def filterDetectionsByType (detections : List Detection) (filterType : Str) :
    List Detection :=
  if filterType = "all".toList then detections
  else
    let allowedTypes := objectTypeMap filterType
    detections.filter fun det =>
      match det.categories.head? with
      | none => false
      | some cat => allowedTypes.any fun t => strIncludes (lowerStr cat.categoryName) t

/-- JS `Math.round` (round half toward positive infinity). -/
def jsRound (q : ℚ) : ℤ := ⌊q + 1 / 2⌋

/-- A capture-payload record pushed into `detectionData` by `drawDetections`
(`src/edge/drawing.js`, lines 148-158): rounded display coordinates, the
unrounded rect used for drawing, and the original video-space box. -/
structure DetectionRecord where
  categoryName : Str
  score : ℚ
  x : ℤ
  y : ℤ
  width : ℤ
  height : ℤ
  rect : MappedRect
  videoBbox : BBox
deriving DecidableEq, Repr

/-- The smoothing map `smoothBoxes` (JS `Map` from key to rect), modelled
as an insertion-ordered association list. -/
abbrev SmoothMap := List (Str × MappedRect)

/-- Model of `Map.get`. -/
def mget : SmoothMap → Str → Option MappedRect
  | [], _ => none
  | (k0, v) :: rest, k => if k0 = k then some v else mget rest k

/-- Model of `Map.set`: replace in place, else append. -/
def mset : SmoothMap → Str → MappedRect → SmoothMap
  | [], k, v => [(k, v)]
  | (k0, v0) :: rest, k, v =>
    if k0 = k then (k, v) :: rest else (k0, v0) :: mset rest k v

/-- Embeds `smoothBBox` from `src/edge/smoothing.js` (lines 11-32): on a
first observation the new box is stored and returned unchanged; otherwise
the confidence-weighted EMA step is applied and stored.  Returns the
updated map together with the returned rect. -/
def smoothBBox (m : SmoothMap) (key : Str) (bbox : MappedRect)
    (confidence : ℚ) : SmoothMap × MappedRect :=
  match mget m key with
  | none => (mset m key bbox, bbox)
  | some prev =>
    let next := emaStep prev bbox (emaAlpha confidence)
    (mset m key next, next)

/-- The body of the per-detection loop of `drawDetections`
(`src/edge/drawing.js`, lines 118-185): skip category-less detections, map,
clamp, smooth, dead-zone against the previously stored rect, store the
result, and emit the capture record. -/
def processDetection (videoW videoH viewW viewH : ℚ) (m : SmoothMap)
    (det : Detection) : SmoothMap × Option DetectionRecord :=
  match det.categories.head? with
  | none => (m, none)
  | some cat =>
    let key := cat.categoryName
    let rawRect := mapRectFromVideoToCanvas det.boundingBox videoW videoH viewW viewH
    let clampedRect := clampRect viewW viewH rawRect
    let prevSmoothedRect := mget m key
    let smoothed := smoothBBox m key clampedRect cat.score
    let finalRect :=
      match prevSmoothedRect with
      | some prev => applyDeadZone prev smoothed.2 deadZoneEps
      | none => smoothed.2
    (mset smoothed.1 key finalRect,
      some
        { categoryName := key
          score := cat.score
          x := jsRound finalRect.x
          y := jsRound finalRect.y
          width := jsRound finalRect.w
          height := jsRound finalRect.h
          rect := finalRect
          videoBbox := det.boundingBox })

/-- The set of keys added to `currentKeys` during a render pass: the first
category name of every filtered detection that has one. -/
def currentKeysOf (detections : List Detection) (objectFilter : Str) :
    List Str :=
  (filterDetectionsByType detections objectFilter).filterMap
    fun det => (det.categories.head?).map Category.categoryName

/-- Embeds the state effect of `drawDetections` (`src/edge/drawing.js`,
lines 97-195): fold the per-detection loop over the filtered detections,
then evict every key that is not among the current frame's keys. -/
def drawDetections (videoW videoH viewW viewH : ℚ) (m : SmoothMap)
    (detections : List Detection) (objectFilter : Str) :
    SmoothMap × List DetectionRecord :=
  let filtered := filterDetectionsByType detections objectFilter
  let looped := filtered.foldl
    (fun acc det =>
      let r := processDetection videoW videoH viewW viewH acc.1 det
      (r.1, acc.2 ++ r.2.toList))
    (m, ([] : List DetectionRecord))
  let keys := currentKeysOf detections objectFilter
  (looped.1.filter fun e => decide (e.1 ∈ keys), looped.2)

/-- Embeds `isSelectedObjectTypeDetected` from `src/edge/filter.js` (lines
33-44), over the capture records of the previous frame; the object-type
keyword map is a parameter, as in the source. -/
def isSelectedObjectTypeDetected (detections : List DetectionRecord)
    (filterType : Str) (typeMap : Str → List Str) : Bool :=
  if filterType = "all".toList then !detections.isEmpty
  else
    let allowedTypes := typeMap filterType
    detections.any fun det =>
      allowedTypes.any fun t => strIncludes (lowerStr det.categoryName) t

theorem mget_mset_self (m : SmoothMap) (k : Str) (v : MappedRect) :
    mget (mset m k v) k = some v := by
  induction m with
  | nil => simp [mset, mget]
  | cons e rest ih =>
    obtain ⟨k0, v0⟩ := e
    by_cases h : k0 = k
    · simp [mset, mget, h]
    · simp [mset, mget, h, ih]

theorem mget_filter (m : SmoothMap) (p : Str × MappedRect → Bool)
    (k : Str) (v : MappedRect) (h : mget (m.filter p) k = some v) :
    p (k, v) = true := by
  induction m with
  | nil => simp [mget] at h
  | cons e rest ih =>
    obtain ⟨k0, v0⟩ := e
    by_cases hp : p (k0, v0) = true
    · rw [List.filter_cons_of_pos hp] at h
      rw [mget] at h
      by_cases hk : k0 = k
      · subst hk
        simp at h
        subst h
        exact hp
      · rw [if_neg hk] at h
        exact ih h
    · rw [List.filter_cons_of_neg (by simpa using hp)] at h
      exact ih h

end Vision

namespace Vision

/-- C6: key eviction and restart in the render pass.  First, every key
absent from the current frame's filtered detections is absent from the
smoothing map at the end of `drawDetections`.  Second, a key not present in
the smoothing map (in particular one that was evicted earlier and now
reappears) is treated as a first observation by the per-detection step: its
clamped new rect is stored in the map and emitted unchanged, with no state
inherited from before the disappearance. -/
theorem key_eviction_and_restart (videoW videoH viewW viewH : ℚ)
    (m : SmoothMap) (detections : List Detection) (objectFilter : Str) :
    (∀ k : Str, k ∉ currentKeysOf detections objectFilter →
      mget (drawDetections videoW videoH viewW viewH m detections objectFilter).1 k
        = none) ∧
    (∀ (m0 : SmoothMap) (det : Detection) (cat : Category),
      det.categories.head? = some cat →
      mget m0 cat.categoryName = none →
      mget (processDetection videoW videoH viewW viewH m0 det).1 cat.categoryName =
        some (clampRect viewW viewH
          (mapRectFromVideoToCanvas det.boundingBox videoW videoH viewW viewH)) ∧
      (processDetection videoW videoH viewW viewH m0 det).2.map DetectionRecord.rect =
        some (clampRect viewW viewH
          (mapRectFromVideoToCanvas det.boundingBox videoW videoH viewW viewH))) := by
  constructor
  · intro k hk
    cases hm : mget (drawDetections videoW videoH viewW viewH m detections objectFilter).1 k
      with
    | none => rfl
    | some v =>
      exfalso
      apply hk
      have := mget_filter _ _ _ _ hm
      simpa using this
  · intro m0 det cat hcat hnone
    simp only [processDetection, hcat, smoothBBox, hnone, Option.map_some]
    exact ⟨mget_mset_self _ _ _, rfl⟩

/-- Witness for C6 at a concrete frame: one `cat` detection entering an
empty smoothing map on a 100×100 view of a 100×100 source. -/
theorem key_eviction_and_restart_witness :
    (((["dog".toList] : List Str).contains ("cat".toList) = false) ∧
      mget (drawDetections 100 100 100 100 [] [] ("all".toList)).1 ("cat".toList)
        = none) ∧
    mget
      (processDetection 100 100 100 100 []
        ⟨[⟨"cat".toList, 0.9⟩], ⟨10, 10, 20, 20⟩⟩).1 ("cat".toList) =
      some (clampRect 100 100
        (mapRectFromVideoToCanvas ⟨10, 10, 20, 20⟩ 100 100 100 100)) := by
  have h := key_eviction_and_restart 100 100 100 100 [] [] ("all".toList)
  have h2 := key_eviction_and_restart 100 100 100 100 [] [] ("all".toList)
  refine ⟨⟨by decide, h.1 ("cat".toList) (by simp [currentKeysOf, filterDetectionsByType])⟩, ?_⟩
  exact (h2.2 [] ⟨[⟨"cat".toList, 0.9⟩], ⟨10, 10, 20, 20⟩⟩ ⟨"cat".toList, 0.9⟩ rfl rfl).1

/-- C10: the per-frame presence signal.  For the `all` filter the signal is
true exactly when the detection list is non-empty; for any other filter it
is true exactly when some detection's lowercased category name contains one
of the filter's configured keywords as a substring. -/
theorem presence_signal_matches_substring (detections : List DetectionRecord)
    (filterType : Str) :
    (filterType = "all".toList →
      (isSelectedObjectTypeDetected detections filterType objectTypeMap = true ↔
        detections ≠ [])) ∧
    (filterType ≠ "all".toList →
      (isSelectedObjectTypeDetected detections filterType objectTypeMap = true ↔
        ∃ det ∈ detections, ∃ kw ∈ objectTypeMap filterType,
          kw <:+: lowerStr det.categoryName)) := by
  constructor
  · intro h
    simp [isSelectedObjectTypeDetected, h]
  · intro h
    unfold isSelectedObjectTypeDetected
    rw [if_neg h]
    simp [List.any_eq_true, strIncludes_iff]

/-- Witness for C10: a record labelled `racecar` (which merely contains the
substring `car`) makes the `car` filter's presence signal true. -/
theorem presence_signal_matches_substring_witness :
    ("car".toList ≠ "all".toList) ∧
    isSelectedObjectTypeDetected
      [⟨"racecar".toList, 0.9, 0, 0, 0, 0, ⟨0, 0, 0, 0⟩, ⟨0, 0, 0, 0⟩⟩]
      ("car".toList) objectTypeMap = true := by
  refine ⟨by decide, ?_⟩
  apply ((presence_signal_matches_substring _ _).2 (by decide)).mpr
  refine ⟨_, List.mem_singleton.mpr rfl, "car".toList, ?_, ?_⟩
  · simp [objectTypeMap]
  · decide

end Vision

namespace Vision

/-- A completed presence period pushed into `detectionPeriods`
(`src/unnamed/part_004`): the JS field `end` is called `stop` here. -/
structure PresencePeriod where
  start : ℚ
  stop : ℚ
deriving DecidableEq, Repr

/-- The mutable tracking state of `checkObjectDetectionForAutoCapture` in
`src/unnamed/part_004`: `detectionPeriods`, `lastObjectDetected`,
`currentDetectionStart` and `lastCaptureTime`. -/
structure TrackerState where
  detectionPeriods : List PresencePeriod
  lastObjectDetected : Bool
  currentDetectionStart : Option ℚ
  lastCaptureTime : ℚ
deriving DecidableEq, Repr

/-- The presence-transition handling at the top of
`checkObjectDetectionForAutoCapture` (`src/unnamed/part_004`, lines
206-226): open a period on a false-to-true transition, close and append it
on a true-to-false transition. -/
def updatePresence (st : TrackerState) (nowMs : ℚ) (isDetected : Bool) :
    TrackerState :=
  if isDetected then
    if st.lastObjectDetected then
      { st with lastObjectDetected := true }
    else
      { st with currentDetectionStart := some nowMs, lastObjectDetected := true }
  else
    if st.lastObjectDetected then
      match st.currentDetectionStart with
      | some s =>
        { st with
            detectionPeriods := st.detectionPeriods ++ [⟨s, nowMs⟩]
            currentDetectionStart := none
            lastObjectDetected := false }
      | none => { st with lastObjectDetected := false }
    else
      { st with lastObjectDetected := false }

/-- The contribution of one completed period to `totalDetectionTime`
(`src/unnamed/part_004`, lines 236-242): the length of the period clipped
to the window, counted only when positive. -/
def clippedLen (windowStart nowMs : ℚ) (p : PresencePeriod) : ℚ :=
  let periodStart := max p.start windowStart
  let periodEnd := min p.stop nowMs
  if periodStart < periodEnd then periodEnd - periodStart else 0

/-- The contribution of the open period to `totalDetectionTime`
(`src/unnamed/part_004`, lines 244-251). -/
def openClippedLen (windowStart nowMs : ℚ) : Option ℚ → ℚ
  | some s =>
    let currentStart := max s windowStart
    if currentStart < nowMs then nowMs - currentStart else 0
  | none => 0

/-- `totalDetectionTime` as computed by the source: clipped completed
periods plus the clipped open period. -/
def totalDetectionTime (windowStart nowMs : ℚ) (periods : List PresencePeriod)
    (cur : Option ℚ) : ℚ :=
  (periods.map (clippedLen windowStart nowMs)).sum + openClippedLen windowStart nowMs cur

/-- The tracker state after the presence transition and the sliding-window
prune (`src/unnamed/part_004`, lines 228-230), before the trigger check. -/
def observeMid (intervalMs : ℚ) (st : TrackerState) (nowMs : ℚ)
    (isDetected : Bool) : TrackerState :=
  let st1 := updatePresence st nowMs isDetected
  { st1 with
      detectionPeriods :=
        st1.detectionPeriods.filter fun p => decide (nowMs - intervalMs ≤ p.stop) }

/-- Embeds `checkObjectDetectionForAutoCapture` from `src/unnamed/part_004`
(lines 190-280): returns the new tracking state and whether the auto-capture
trigger fired at this call.  `intervalSeconds` is the configured window in
seconds and `running` the detection-loop flag; when the interval is 0 or the
loop is not running, tracking state is reset and no trigger is possible. -/
def checkAutoCapture (intervalSeconds : ℚ) (running : Bool) (isDetected : Bool)
    (st : TrackerState) (nowMs : ℚ) : TrackerState × Bool :=
  if intervalSeconds = 0 ∨ running = false then
    ({ st with
        detectionPeriods := []
        lastObjectDetected := false
        currentDetectionStart := none }, false)
  else
    let intervalMs := intervalSeconds * 1000
    let thresholdMs := intervalMs * 0.8
    let windowStart := nowMs - intervalMs
    let st2 := observeMid intervalMs st nowMs isDetected
    let total := totalDetectionTime windowStart nowMs st2.detectionPeriods
      st2.currentDetectionStart
    if thresholdMs ≤ total then
      if intervalMs ≤ nowMs - st2.lastCaptureTime then
        let newWindowStart := nowMs - intervalMs
        ({ st2 with
            lastCaptureTime := nowMs
            detectionPeriods :=
              st2.detectionPeriods.filter fun p => decide (newWindowStart ≤ p.stop)
            currentDetectionStart :=
              st2.currentDetectionStart.map fun s =>
                if s < newWindowStart then newWindowStart else s }, true)
      else (st2, false)
    else (st2, false)

/-- Modelled from the claim text of C1: the total presence time within the
window `[nowMs - windowMs, nowMs]` — the sum over closed periods of the
(nonnegative) length of the period intersected with the window, plus the
same for the open period. -/
def presenceInWindow (windowStart nowMs : ℚ) (periods : List PresencePeriod)
    (cur : Option ℚ) : ℚ :=
  (periods.map fun p => max 0 (min p.stop nowMs - max p.start windowStart)).sum +
    (match cur with
     | some s => max 0 (nowMs - max s windowStart)
     | none => 0)

theorem updatePresence_lastCaptureTime (st : TrackerState) (nowMs : ℚ)
    (isDetected : Bool) :
    (updatePresence st nowMs isDetected).lastCaptureTime = st.lastCaptureTime := by
  unfold updatePresence
  cases isDetected with
  | false =>
    cases h : st.lastObjectDetected with
    | false => simp [h]
    | true => cases hc : st.currentDetectionStart <;> simp [h, hc]
  | true => cases h : st.lastObjectDetected <;> simp [h]

theorem observeMid_lastCaptureTime (intervalMs : ℚ) (st : TrackerState)
    (nowMs : ℚ) (isDetected : Bool) :
    (observeMid intervalMs st nowMs isDetected).lastCaptureTime =
      st.lastCaptureTime := by
  unfold observeMid
  exact updatePresence_lastCaptureTime st nowMs isDetected

theorem clippedLen_eq_max (ws nowMs : ℚ) (p : PresencePeriod) :
    clippedLen ws nowMs p = max 0 (min p.stop nowMs - max p.start ws) := by
  unfold clippedLen
  by_cases h : max p.start ws < min p.stop nowMs
  · rw [if_pos h, eq_comm, max_eq_right]
    linarith
  · rw [if_neg h, eq_comm, max_eq_left]
    push_neg at h
    linarith

theorem openClippedLen_some (ws nowMs s : ℚ) :
    openClippedLen ws nowMs (some s) = max 0 (nowMs - max s ws) := by
  show (if max s ws < nowMs then nowMs - max s ws else 0) = max 0 (nowMs - max s ws)
  by_cases h : max s ws < nowMs
  · rw [if_pos h, eq_comm, max_eq_right]
    linarith
  · rw [if_neg h, eq_comm, max_eq_left]
    push_neg at h
    linarith

theorem clippedLen_eq_zero_of_pruned (ws nowMs : ℚ) (p : PresencePeriod)
    (h : p.stop < ws) : clippedLen ws nowMs p = 0 := by
  unfold clippedLen
  rw [if_neg]
  exact not_lt.mpr
    (le_trans (le_trans (min_le_left _ _) (le_of_lt h)) (le_max_right _ _))

/-- Pruning periods that end before the window start does not change the
clipped total: a pruned period's clipped contribution is already zero. -/
theorem totalDetectionTime_filter_eq_presence (ws nowMs : ℚ)
    (l : List PresencePeriod) (cur : Option ℚ) :
    totalDetectionTime ws nowMs (l.filter fun p => decide (ws ≤ p.stop)) cur =
      presenceInWindow ws nowMs l cur := by
  unfold totalDetectionTime presenceInWindow
  have hsum : ∀ t : List PresencePeriod,
      ((t.filter fun p => decide (ws ≤ p.stop)).map (clippedLen ws nowMs)).sum =
        (t.map fun p => max 0 (min p.stop nowMs - max p.start ws)).sum := by
    intro t
    induction t with
    | nil => rfl
    | cons p rest ih =>
      by_cases h : ws ≤ p.stop
      · rw [List.filter_cons_of_pos (by simpa using h)]
        simp only [List.map_cons, List.sum_cons, ih, clippedLen_eq_max]
      · rw [List.filter_cons_of_neg (by simpa using h)]
        push_neg at h
        have h0 := clippedLen_eq_zero_of_pruned ws nowMs p h
        rw [clippedLen_eq_max] at h0
        simp only [List.map_cons, List.sum_cons, ih, h0, zero_add]
  rw [hsum]
  congr 1
  cases cur with
  | none => rfl
  | some s => exact openClippedLen_some ws nowMs s

/-- The total the trigger check compares against equals the claim-level
presence time of the post-transition state. -/
theorem observeMid_total_eq_presence (i : ℚ) (st : TrackerState) (nowMs : ℚ)
    (d : Bool) :
    totalDetectionTime (nowMs - i * 1000) nowMs
        (observeMid (i * 1000) st nowMs d).detectionPeriods
        (observeMid (i * 1000) st nowMs d).currentDetectionStart =
      presenceInWindow (nowMs - i * 1000) nowMs
        (updatePresence st nowMs d).detectionPeriods
        (updatePresence st nowMs d).currentDetectionStart := by
  unfold observeMid
  exact totalDetectionTime_filter_eq_presence (nowMs - i * 1000) nowMs
    (updatePresence st nowMs d).detectionPeriods
    (updatePresence st nowMs d).currentDetectionStart

end Vision

namespace Vision

/-- The fire condition of `checkAutoCapture`, isolated: threshold reached
and cooldown elapsed. -/
theorem checkAutoCapture_fired_iff (i : ℚ) (d : Bool) (st : TrackerState)
    (nowMs : ℚ) (hi : i ≠ 0) :
    (checkAutoCapture i true d st nowMs).2 = true ↔
      0.8 * (i * 1000) ≤
          presenceInWindow (nowMs - i * 1000) nowMs
            (updatePresence st nowMs d).detectionPeriods
            (updatePresence st nowMs d).currentDetectionStart ∧
        i * 1000 ≤ nowMs - st.lastCaptureTime := by
  simp only [checkAutoCapture]
  rw [if_neg (by simp [hi])]
  rw [observeMid_total_eq_presence i st nowMs d,
    observeMid_lastCaptureTime (i * 1000) st nowMs d]
  split_ifs with h1 h2
  · constructor
    · intro _
      exact ⟨by linarith, h2⟩
    · intro _
      rfl
  · constructor
    · intro h
      exact absurd h (by simp)
    · intro h
      exact absurd h.2 h2
  · constructor
    · intro h
      exact absurd h (by simp)
    · intro h
      exfalso
      apply h1
      linarith [h.1]

/-- When the trigger does not fire, the call returns the post-transition,
pruned state unchanged. -/
theorem checkAutoCapture_not_fired_state (i : ℚ) (d : Bool) (st : TrackerState)
    (nowMs : ℚ) (hi : i ≠ 0)
    (h : (checkAutoCapture i true d st nowMs).2 = false) :
    (checkAutoCapture i true d st nowMs).1 = observeMid (i * 1000) st nowMs d := by
  revert h
  simp only [checkAutoCapture]
  rw [if_neg (by simp [hi])]
  split_ifs with h1 h2
  · intro h
    exact absurd h (by simp)
  · intro _
    rfl
  · intro _
    rfl

/-- When the trigger fires, the call returns the re-baselined state: periods
filtered against the new window start, the open period's start clamped
forward, `lastCaptureTime` set to now. -/
theorem checkAutoCapture_fired_state (i : ℚ) (d : Bool) (st : TrackerState)
    (nowMs : ℚ) (hi : i ≠ 0)
    (h : (checkAutoCapture i true d st nowMs).2 = true) :
    (checkAutoCapture i true d st nowMs).1 =
      { detectionPeriods :=
          (observeMid (i * 1000) st nowMs d).detectionPeriods.filter
            fun p => decide (nowMs - i * 1000 ≤ p.stop)
        lastObjectDetected := (observeMid (i * 1000) st nowMs d).lastObjectDetected
        currentDetectionStart :=
          (observeMid (i * 1000) st nowMs d).currentDetectionStart.map
            fun s => if s < nowMs - i * 1000 then nowMs - i * 1000 else s
        lastCaptureTime := nowMs } := by
  revert h
  simp only [checkAutoCapture]
  rw [if_neg (by simp [hi])]
  split_ifs with h1 h2
  · intro _
    rfl
  · intro h
    exact absurd h (by simp)
  · intro h
    exact absurd h (by simp)

end Vision

namespace Vision

/-- C1 counterexample: with `windowMs = 10000`, timestamps starting at 0 and
the initial tracking state (`lastCaptureTime = 0`), the object present
continuously from `t = 0` (observe calls at 0 and 8000, both present): the
call at `t = 8000` — the first observe call at or after 8000 ms — does NOT
fire the trigger, because `nowMs - lastCaptureTime = 8000 < windowMs`,
even though the presence time `8000 ≥ 0.8 * windowMs` is reached. -/
theorem auto_capture_no_fire_at_8000_cex :
    (checkAutoCapture 10 true true
      (checkAutoCapture 10 true true ⟨[], false, none, 0⟩ 0).1 8000).2 = false := by
  norm_num [checkAutoCapture, observeMid, updatePresence, totalDetectionTime,
    clippedLen, openClippedLen]

/-- C1 amended: the trigger fires at an observe call at time `nowMs` iff the
total presence within `[nowMs - windowMs, nowMs]` (clipped closed periods
plus the clipped open period, after this call's presence transition) is at
least `0.8 * windowMs` AND `nowMs - lastCaptureTime ≥ windowMs`.  In
particular, with `windowMs = 10000`, timestamps measured from 0, the
initial `lastCaptureTime = 0`, and the object present continuously from
`t = 0`: no call before `t = 10000` fires (the cooldown relative to the
initial `lastCaptureTime = 0` delays the first trigger past the 8000 ms
threshold point), every present-call at `t ≥ 10000` from the accumulated
state fires, and after a fire at time `t` no call fires again before
`t + 10000` (so with the first fire at `t = 10000`, none before 20000). -/
theorem auto_capture_fire_iff_amended :
    (∀ (i : ℚ) (d : Bool) (st : TrackerState) (nowMs : ℚ), i ≠ 0 →
      ((checkAutoCapture i true d st nowMs).2 = true ↔
        0.8 * (i * 1000) ≤
            presenceInWindow (nowMs - i * 1000) nowMs
              (updatePresence st nowMs d).detectionPeriods
              (updatePresence st nowMs d).currentDetectionStart ∧
          i * 1000 ≤ nowMs - st.lastCaptureTime)) ∧
    checkAutoCapture 10 true true ⟨[], false, none, 0⟩ 0 =
      (⟨[], true, some 0, 0⟩, false) ∧
    (∀ u : ℚ, 0 ≤ u → u < 10000 →
      checkAutoCapture 10 true true ⟨[], true, some 0, 0⟩ u =
        (⟨[], true, some 0, 0⟩, false)) ∧
    (∀ t : ℚ, 10000 ≤ t →
      checkAutoCapture 10 true true ⟨[], true, some 0, 0⟩ t =
        (⟨[], true, some (t - 10000), t⟩, true)) ∧
    (∀ t u : ℚ, 10000 ≤ t → t ≤ u → u < t + 10000 →
      checkAutoCapture 10 true true ⟨[], true, some (t - 10000), t⟩ u =
        (⟨[], true, some (t - 10000), t⟩, false)) := by
  have hne : (10 : ℚ) ≠ 0 := by norm_num
  refine ⟨?_, ?_, ?_, ?_, ?_⟩
  · intro i d st nowMs hi
    exact checkAutoCapture_fired_iff i d st nowMs hi
  · norm_num [checkAutoCapture, observeMid, updatePresence, totalDetectionTime,
      clippedLen, openClippedLen]
  · intro u h0 hu
    have hmid : observeMid (10 * 1000) ⟨[], true, some 0, 0⟩ u true =
        ⟨[], true, some 0, 0⟩ := by
      simp [observeMid, updatePresence]
    have hfired : (checkAutoCapture 10 true true ⟨[], true, some 0, 0⟩ u).2 = false := by
      cases hb : (checkAutoCapture 10 true true ⟨[], true, some 0, 0⟩ u).2 with
      | false => rfl
      | true =>
        have hc := (checkAutoCapture_fired_iff 10 true ⟨[], true, some 0, 0⟩ u hne).mp hb
        have h2 : (10 : ℚ) * 1000 ≤ u - 0 := hc.2
        exfalso
        linarith
    have hstate := checkAutoCapture_not_fired_state 10 true ⟨[], true, some 0, 0⟩ u
      hne hfired
    calc checkAutoCapture 10 true true ⟨[], true, some 0, 0⟩ u
        = ((checkAutoCapture 10 true true ⟨[], true, some 0, 0⟩ u).1,
           (checkAutoCapture 10 true true ⟨[], true, some 0, 0⟩ u).2) := rfl
      _ = (⟨[], true, some 0, 0⟩, false) := by rw [hstate, hmid, hfired]
  · intro t ht
    have hmid : observeMid (10 * 1000) ⟨[], true, some 0, 0⟩ t true =
        ⟨[], true, some 0, 0⟩ := by
      simp [observeMid, updatePresence]
    have hup : updatePresence ⟨[], true, some 0, 0⟩ t true = ⟨[], true, some 0, 0⟩ := by
      simp [updatePresence]
    have hfired : (checkAutoCapture 10 true true ⟨[], true, some 0, 0⟩ t).2 = true := by
      apply (checkAutoCapture_fired_iff 10 true ⟨[], true, some 0, 0⟩ t hne).mpr
      constructor
      · rw [hup]
        unfold presenceInWindow
        simp only [List.map_nil, List.sum_nil, zero_add]
        rw [show max (0 : ℚ) (t - 10 * 1000) = t - 10 * 1000 from
          max_eq_right (by linarith)]
        rw [show t - (t - 10 * 1000) = 10 * 1000 by ring]
        rw [max_eq_right (by norm_num : (0 : ℚ) ≤ 10 * 1000)]
        norm_num
      · show (10 : ℚ) * 1000 ≤ t - 0
        linarith
    have hstate := checkAutoCapture_fired_state 10 true ⟨[], true, some 0, 0⟩ t
      hne hfired
    have hval : (if (0 : ℚ) < t - 10 * 1000 then t - 10 * 1000 else 0) = t - 10000 := by
      by_cases hc : (0 : ℚ) < t - 10 * 1000
      · rw [if_pos hc]
        norm_num
      · rw [if_neg hc]
        push_neg at hc
        have ht10 : t = 10000 := by linarith
        rw [ht10]
        norm_num
    calc checkAutoCapture 10 true true ⟨[], true, some 0, 0⟩ t
        = ((checkAutoCapture 10 true true ⟨[], true, some 0, 0⟩ t).1,
           (checkAutoCapture 10 true true ⟨[], true, some 0, 0⟩ t).2) := rfl
      _ = (⟨[], true, some (t - 10000), t⟩, true) := by
          rw [hstate, hfired, hmid]
          simp only [List.filter_nil, Option.map_some']
          rw [hval]
  · intro t u ht htu hu
    have hmid : observeMid (10 * 1000) ⟨[], true, some (t - 10000), t⟩ u true =
        ⟨[], true, some (t - 10000), t⟩ := by
      simp [observeMid, updatePresence]
    have hfired :
        (checkAutoCapture 10 true true ⟨[], true, some (t - 10000), t⟩ u).2 = false := by
      cases hb : (checkAutoCapture 10 true true ⟨[], true, some (t - 10000), t⟩ u).2 with
      | false => rfl
      | true =>
        have hc := (checkAutoCapture_fired_iff 10 true
          ⟨[], true, some (t - 10000), t⟩ u hne).mp hb
        have h2 : (10 : ℚ) * 1000 ≤ u - t := hc.2
        exfalso
        linarith
    have hstate := checkAutoCapture_not_fired_state 10 true
      ⟨[], true, some (t - 10000), t⟩ u hne hfired
    calc checkAutoCapture 10 true true ⟨[], true, some (t - 10000), t⟩ u
        = ((checkAutoCapture 10 true true ⟨[], true, some (t - 10000), t⟩ u).1,
           (checkAutoCapture 10 true true ⟨[], true, some (t - 10000), t⟩ u).2) := rfl
      _ = (⟨[], true, some (t - 10000), t⟩, false) := by rw [hstate, hmid, hfired]

/-- Witness for the amended C1, at concrete times: under continuous
presence from the accumulated state, the call at 9000 does not fire, the
calls at 10000 and 12000 fire, and after the fire at 12000 the call at
15000 does not fire. -/
theorem auto_capture_fire_iff_amended_witness :
    (checkAutoCapture 10 true true ⟨[], true, some 0, 0⟩ 9000).2 = false ∧
    (checkAutoCapture 10 true true ⟨[], true, some 0, 0⟩ 10000).2 = true ∧
    (checkAutoCapture 10 true true ⟨[], true, some 0, 0⟩ 12000).2 = true ∧
    (checkAutoCapture 10 true true ⟨[], true, some 2000, 12000⟩ 15000).2 = false := by
  obtain ⟨-, -, hC, hD, hE⟩ := auto_capture_fire_iff_amended
  refine ⟨?_, ?_, ?_, ?_⟩
  · rw [hC 9000 (by norm_num) (by norm_num)]
  · rw [hD 10000 (by norm_num)]
  · rw [hD 12000 (by norm_num)]
  · have h := hE 12000 15000 (by norm_num) (by norm_num) (by norm_num)
    rw [show (12000 : ℚ) - 10000 = 2000 by norm_num] at h
    rw [h]

/-- C4: when the trigger fires at `nowMs`, the returned state is the
post-transition state re-baselined to the window start `nowMs - intervalMs`:
every completed period ending before the window start is dropped (the kept
periods are exactly the filter of the post-transition ones), the open
period's recorded start is clamped forward to exactly the window start when
it is earlier, and the presence flag and the open period's existence are
otherwise unchanged; `lastCaptureTime` becomes `nowMs`. -/
theorem rebaseline_on_fire (i : ℚ) (d : Bool) (st : TrackerState) (nowMs : ℚ)
    (hi : i ≠ 0) (hfire : (checkAutoCapture i true d st nowMs).2 = true) :
    (checkAutoCapture i true d st nowMs).1.detectionPeriods =
        (updatePresence st nowMs d).detectionPeriods.filter
          (fun p => decide (nowMs - i * 1000 ≤ p.stop)) ∧
    (∀ p ∈ (checkAutoCapture i true d st nowMs).1.detectionPeriods,
        nowMs - i * 1000 ≤ p.stop) ∧
    (checkAutoCapture i true d st nowMs).1.currentDetectionStart =
        (updatePresence st nowMs d).currentDetectionStart.map
          (fun s => if s < nowMs - i * 1000 then nowMs - i * 1000 else s) ∧
    (checkAutoCapture i true d st nowMs).1.lastObjectDetected =
        (updatePresence st nowMs d).lastObjectDetected ∧
    (checkAutoCapture i true d st nowMs).1.lastCaptureTime = nowMs := by
  rw [checkAutoCapture_fired_state i d st nowMs hi hfire]
  refine ⟨?_, ?_, rfl, rfl, rfl⟩
  · show ((observeMid (i * 1000) st nowMs d).detectionPeriods.filter
      (fun p => decide (nowMs - i * 1000 ≤ p.stop))) = _
    unfold observeMid
    rw [List.filter_filter]
    simp
  · intro p hp
    simp only [List.mem_filter] at hp
    simpa using hp.2

/-- Witness for C4: a concrete firing call at `nowMs = 12000` with a 10 s
window, one stale completed period and an open period started at 1500. -/
theorem rebaseline_on_fire_witness :
    (checkAutoCapture 10 true true ⟨[⟨-8000, 1000⟩], true, some 1500, 0⟩ 12000).1.detectionPeriods =
        (updatePresence ⟨[⟨-8000, 1000⟩], true, some 1500, 0⟩ 12000 true).detectionPeriods.filter
          (fun p => decide ((12000 : ℚ) - 10 * 1000 ≤ p.stop)) ∧
    (∀ p ∈ (checkAutoCapture 10 true true ⟨[⟨-8000, 1000⟩], true, some 1500, 0⟩ 12000).1.detectionPeriods,
        (12000 : ℚ) - 10 * 1000 ≤ p.stop) ∧
    (checkAutoCapture 10 true true ⟨[⟨-8000, 1000⟩], true, some 1500, 0⟩ 12000).1.currentDetectionStart =
        (updatePresence ⟨[⟨-8000, 1000⟩], true, some 1500, 0⟩ 12000 true).currentDetectionStart.map
          (fun s => if s < (12000 : ℚ) - 10 * 1000 then (12000 : ℚ) - 10 * 1000 else s) ∧
    (checkAutoCapture 10 true true ⟨[⟨-8000, 1000⟩], true, some 1500, 0⟩ 12000).1.lastObjectDetected =
        (updatePresence ⟨[⟨-8000, 1000⟩], true, some 1500, 0⟩ 12000 true).lastObjectDetected ∧
    (checkAutoCapture 10 true true ⟨[⟨-8000, 1000⟩], true, some 1500, 0⟩ 12000).1.lastCaptureTime = 12000 :=
  rebaseline_on_fire 10 true ⟨[⟨-8000, 1000⟩], true, some 1500, 0⟩ 12000
    (by norm_num)
    (by norm_num [checkAutoCapture, observeMid, updatePresence, totalDetectionTime,
      clippedLen, openClippedLen])

end Vision

namespace Vision

/-- The parsed response of the analysis endpoint: `result.analysis` may be
absent (`none` models JS `undefined`). -/
structure ApiResult where
  analysis : Option String
deriving DecidableEq, Repr

/-- The user-visible outcome of a capture-and-analyze run: the status line
text and the state of the response panel. -/
structure AnalysisOutcome where
  statusText : String
  responseShown : Bool
  responseText : String
  responseColor : String
deriving DecidableEq, Repr

/-- Embeds `handleAnalysisError` from `src/edge/actions/index.js` (lines
54-67): the status line shows the raw message, the response panel shows it
in the error colour. -/
def handleAnalysisError (errMsg : String) : AnalysisOutcome :=
  { statusText := "API Error: " ++ errMsg
    responseShown := true
    responseText := "Error: " ++ errMsg
    responseColor := "#ff6b6b" }

/-- Embeds `handleAnalysisResponse` from `src/edge/actions/index.js` (lines
32-45); when `result.analysis` is undefined nothing is shown and the status
line keeps its current text. -/
def handleAnalysisResponse (result : ApiResult) (currentStatus : String) :
    AnalysisOutcome :=
  match result.analysis with
  | some a =>
    { statusText := "Analysis received"
      responseShown := true
      responseText := if a = "" then "No analysis available" else a
      responseColor := "#fff" }
  | none =>
    { statusText := currentStatus
      responseShown := false
      responseText := ""
      responseColor := "" }

/-- Embeds `runCaptureAndAnalyze` from `src/unnamed/part_004` (lines
314-338).  The awaited external steps are modelled by their outcomes:
`captureResult` for `captureScreenToBlobAndData` and `analysisResult` for
`requestAnalysis` (the hand-off to the reasoning collaborator); a thrown JS
error is an `Except.error` carrying the error message.  The whole `try`
body is sequenced in `Except` and the `catch` branch is
`handleAnalysisError`: the function is total, so no error escapes it. -/
def runCaptureAndAnalyze (videoReady : Bool)
    (captureResult : Except String Unit)
    (analysisResult : Except String ApiResult) : AnalysisOutcome :=
  if videoReady = false then
    { statusText := "Camera not ready"
      responseShown := false
      responseText := ""
      responseColor := "" }
  else
    match captureResult with
    | Except.error e => handleAnalysisError e
    | Except.ok _ =>
      match analysisResult with
      | Except.error e => handleAnalysisError e
      | Except.ok result => handleAnalysisResponse result "Sending to API..."

end Vision

namespace Vision

/-- C9: every error raised by the hand-off to the reasoning collaborator is
caught at the boundary of `runCaptureAndAnalyze`, which completes normally
with the raw message surfaced in the user-visible error state (status line
`API Error: …`, response panel shown with `Error: …`); no exception
propagates out of the pipeline. -/
theorem analysis_error_caught_at_boundary (e : String) :
    runCaptureAndAnalyze true (Except.ok ()) (Except.error e) =
        handleAnalysisError e ∧
      (handleAnalysisError e).statusText = "API Error: " ++ e ∧
      (handleAnalysisError e).responseText = "Error: " ++ e ∧
      (handleAnalysisError e).responseShown = true :=
  ⟨rfl, rfl, rfl, rfl⟩

end Vision
